import Mathlib

/-!
Verification of the elevator simulation controller
(`src/app/components/ElevatorSimulation.tsx`).

The controller logic is shallowly embedded below:

* `CONFIG_*`                  — the `CONFIG` literal (source lines 6-14);
* `ElevatorState`             — the phase enum (lines 17-24);
* `CarState`                  — the React state owned by the component
                                (lines 28-33);
* `movingStep`, `tickDt`      — the body of the `setInterval` callback
                                (lines 286-383), with the hard-coded
                                `dt = 0.016` made a parameter (`tick` fixes
                                it to the source value);
* `handleFloorSelect`         — the request gate (lines 386-396);
* `PendingTimer`, `SimState`,
  `fireTimer`, `frame`        — the `setTimeout`-based auto-close timer of
                                the `DOORS_OPEN` case (lines 364-371),
                                modelled with explicit pending-timer lists
                                and 16 ms frames.

JavaScript numbers are modelled as `ℚ`; all the exactness claims checked
here concern assignments and clamps (`Math.max`/`Math.min`), which are
exact in floating point as well.
-/

-- ==================== CONFIGURATION (source lines 6-14) ====================

def CONFIG_FLOORS : ℤ := 6

def CONFIG_FLOOR_HEIGHT : ℚ := 4

def CONFIG_ELEVATOR_SPEED_MAX : ℚ := 2

def CONFIG_ACCELERATION : ℚ := 1

def CONFIG_DECELERATION : ℚ := 1

def CONFIG_DOOR_OPEN_TIME : ℚ := 2000

def CONFIG_DOOR_ANIMATION_TIME : ℚ := 1000

/-- JS `Math.max` (written with an explicit comparison so that
it evaluates inside the kernel). -/
def jsMax (a b : ℚ) : ℚ := if a ≤ b then b else a

/-- JS `Math.min`. -/
def jsMin (a b : ℚ) : ℚ := if b ≤ a then b else a

/-- JS `Math.abs`. -/
def jsAbs (a : ℚ) : ℚ := if a < 0 then -a else a

-- ==================== STATE MACHINE (source lines 17-24) ====================

inductive ElevatorState where
  | IDLE
  | DOORS_OPENING
  | DOORS_OPEN
  | DOORS_CLOSING
  | MOVING_UP
  | MOVING_DOWN
deriving DecidableEq

open ElevatorState

/-- The React state of `ElevatorSimulation` that the control logic reads and
writes (source lines 28-33).  `state` is the phase of the state machine. -/
structure CarState where
  currentFloor : ℤ
  targetFloor : Option ℤ
  position : ℚ
  velocity : ℚ
  doorProgress : ℚ
  state : ElevatorState
deriving DecidableEq

/-- The initial React state: `useState(0)`, `useState(null)`, `useState(0)`,
`useState(0)`, `useState(0)`, `useState(IDLE)` (source lines 28-33). -/
def carInit : CarState :=
  { currentFloor := 0
    targetFloor := none
    position := 0
    velocity := 0
    doorProgress := 0
    state := IDLE }

-- ==================== TICK (source lines 286-383) ====================

/-- The `targetY` of a tick (source line 292): the target floor height
when a target is set, else the current position. -/
def targetYOf (s : CarState) : ℚ :=
  match s.targetFloor with
  | some t => (t : ℚ) * CONFIG_FLOOR_HEIGHT
  | none => s.position

/-- The `newVelocity` local of the moving case (source lines 320-334):
`distance = Math.abs(targetY - currentY)` and
`decelerationDistance = velocity² / (2·DECELERATION)`; decelerate when
`distance ≤ decelerationDistance + 0.1`, else accelerate towards the speed
cap (the `velocity < SPEED_MAX` guard keeps `newVelocity = velocity`
otherwise). -/
def newVelocityOf (dt ty : ℚ) (s : CarState) : ℚ :=
  if jsAbs (ty - s.position) ≤ s.velocity * s.velocity / (2 * CONFIG_DECELERATION) + 0.1 then
    jsMax 0 (s.velocity - CONFIG_DECELERATION * dt)
  else
    if s.velocity < CONFIG_ELEVATOR_SPEED_MAX then
      jsMin CONFIG_ELEVATOR_SPEED_MAX (s.velocity + CONFIG_ACCELERATION * dt)
    else
      s.velocity

/-- The `newPosition` local after the Euler integration step (source line
337), using the updated velocity. -/
def newPositionOf (dt : ℚ) (movingUp : Bool) (ty : ℚ) (s : CarState) : ℚ :=
  s.position + (if movingUp then newVelocityOf dt ty s else -(newVelocityOf dt ty s)) * dt

/-- The arrival test of the moving case (source line 340). -/
def arrivalOf (dt : ℚ) (movingUp : Bool) (ty : ℚ) (s : CarState) : Prop :=
  (movingUp ∧ newPositionOf dt movingUp ty s ≥ ty) ∨
    (¬movingUp ∧ newPositionOf dt movingUp ty s ≤ ty)

instance (dt : ℚ) (movingUp : Bool) (ty : ℚ) (s : CarState) :
    Decidable (arrivalOf dt movingUp ty s) := by
  unfold arrivalOf
  infer_instance

/-- The `MOVING_UP`/`MOVING_DOWN` case of the tick switch (source lines
315-352).  `movingUp` is `state === ElevatorState.MOVING_UP`; `ty` is the
`targetY` computed by the caller on line 292.  On arrival the source runs
`setCurrentFloor(targetFloor!)`; the non-null assertion is modelled by
`Option.getD` (on every reachable moving state `targetFloor` is a `some`). -/
def movingStep (dt : ℚ) (movingUp : Bool) (ty : ℚ) (s : CarState) : CarState :=
  if arrivalOf dt movingUp ty s then
    { s with
        position := ty
        velocity := 0
        currentFloor := s.targetFloor.getD s.currentFloor
        targetFloor := none
        state := DOORS_OPENING }
  else
    { s with
        position := newPositionOf dt movingUp ty s
        velocity := newVelocityOf dt ty s }

/-- One run of the `setInterval` callback (source lines 286-383) restricted
to its effect on `CarState`; the `setTimeout` scheduled in the `DOORS_OPEN`
case is modelled separately (`frame` below).  The source hard-codes
`const dt = 0.016` (line 290); here `dt` is a parameter and `tick` fixes it
to the source value. -/
def tickDt (dt : ℚ) (s : CarState) : CarState :=
  match s.state with
  | IDLE =>
    match s.targetFloor with
    | some t => if t ≠ s.currentFloor then { s with state := DOORS_CLOSING } else s
    | none => s
  | DOORS_CLOSING =>
    let next := jsMax 0 (s.doorProgress - dt * (1 / (CONFIG_DOOR_ANIMATION_TIME / 1000)))
    if next = 0 then
      match s.targetFloor with
      | some t =>
        { s with
            doorProgress := next
            state := if t > s.currentFloor then MOVING_UP else MOVING_DOWN }
      | none => { s with doorProgress := next }
    else
      { s with doorProgress := next }
  | MOVING_UP => movingStep dt true (targetYOf s) s
  | MOVING_DOWN => movingStep dt false (targetYOf s) s
  | DOORS_OPENING =>
    let next := jsMin 1 (s.doorProgress + dt * (1 / (CONFIG_DOOR_ANIMATION_TIME / 1000)))
    if next = 1 then
      { s with doorProgress := next, state := DOORS_OPEN }
    else
      { s with doorProgress := next }
  | DOORS_OPEN => s

/-- The tick with the step the source uses: `const dt = 0.016` (line 290). -/
def tick (s : CarState) : CarState := tickDt 0.016 s

-- ==================== FLOOR SELECTION (source lines 386-396) ====================

/-- The gate `handleFloorSelect` (source lines 386-396): the guard is the literal
disjunction of the source; on rejection the function just returns
(`return; // Invalid action`), otherwise it runs `setTargetFloor(floor)`. -/
def handleFloorSelect (floor : ℤ) (s : CarState) : CarState :=
  if floor = s.currentFloor ∨ s.state = MOVING_UP ∨ s.state = MOVING_DOWN ∨
      s.state = DOORS_CLOSING then
    s
  else
    { s with targetFloor := some floor }

/-- The rejection reasons named by the specification for `selectFloor`. -/
inductive RejectReason where
  | AlreadyAtFloor
  | InTransit
  | DoorsClosing
  | FloorOutOfRange
deriving DecidableEq

/-- The gate `handleFloorSelect` together with its returned value.  The source
function has return type `void`: every path returns `undefined`, so no
reason value is ever produced; `undefined` is embedded as `none`. -/
def handleFloorSelectResult (floor : ℤ) (s : CarState) : CarState × Option RejectReason :=
  (handleFloorSelect floor s, none)

-- ==================== AUTO-CLOSE TIMER (source lines 364-371) ====================

/-- One pending `setTimeout` scheduled by the `DOORS_OPEN` case.  The
callback closes over the `state` and `targetFloor` variables of the effect
closure, i.e. over the values they had when the timer was scheduled; those
captured values are recorded here.  `remaining` is the time, in
milliseconds, until the timeout fires. -/
structure PendingTimer where
  remaining : ℚ
  capturedState : ElevatorState
  capturedTarget : Option ℤ
deriving DecidableEq

/-- The component state together with the pending `setTimeout` tasks. -/
structure SimState where
  car : CarState
  timers : List PendingTimer
deriving DecidableEq

/-- The body of the `setTimeout` callback (source lines 366-370):
`if (state === ElevatorState.DOORS_OPEN) setState(targetFloor !== null ?
DOORS_CLOSING : IDLE)`, where `state` and `targetFloor` are the captured
values. -/
def fireTimer (c : CarState) (t : PendingTimer) : CarState :=
  if t.capturedState = DOORS_OPEN then
    { c with
        state :=
          match t.capturedTarget with
          | some _ => DOORS_CLOSING
          | none => IDLE }
  else
    c

/-- One 16 ms frame of the event loop: the interval callback runs (a `tick`
on the car state, and — when the phase read by the callback is `DOORS_OPEN`
— a new `setTimeout(…, CONFIG_DOOR_OPEN_TIME)` is scheduled, capturing the
current `state` and `targetFloor`; source lines 364-371 schedule a fresh
timeout on every such run, nothing is ever cancelled), then 16 ms elapse and
the timeouts that have come due fire in the order they were scheduled. -/
def frame (sys : SimState) : SimState :=
  let car1 := tickDt 0.016 sys.car
  let scheduled :=
    if sys.car.state = DOORS_OPEN then
      sys.timers ++ [{ remaining := CONFIG_DOOR_OPEN_TIME
                       capturedState := sys.car.state
                       capturedTarget := sys.car.targetFloor }]
    else
      sys.timers
  let aged := scheduled.map (fun t => { t with remaining := t.remaining - 16 })
  let due := aged.filter (fun t => decide (t.remaining ≤ 0))
  let live := aged.filter (fun t => decide (0 < t.remaining))
  { car := due.foldl fireTimer car1, timers := live }

/-- Runs `n` frames of the event loop from a given system state. -/
def frames (n : ℕ) (sys : SimState) : SimState := Nat.iterate frame n sys

-- ==================== EXECUTIONS ====================

/-- Executions of the controller: the initial state advanced by source
ticks (`dt = 0.016`) and by `handleFloorSelect` calls.  The floor argument
is an arbitrary integer, exactly as the source function accepts it (the
function body performs no range check). -/
inductive Reach : CarState → Prop where
  | init : Reach carInit
  | tick {s : CarState} : Reach s → Reach (tick s)
  | select (floor : ℤ) {s : CarState} : Reach s → Reach (handleFloorSelect floor s)

/-- Executions in which every selected floor is one of the floors the UI
actually renders buttons for: `0, …, CONFIG_FLOORS - 1` (source line 461). -/
inductive ReachUI : CarState → Prop where
  | init : ReachUI carInit
  | tick {s : CarState} : ReachUI s → ReachUI (tick s)
  | select (floor : ℤ) {s : CarState} : 0 ≤ floor → floor < CONFIG_FLOORS →
      ReachUI s → ReachUI (handleFloorSelect floor s)

-- ==================== INVARIANTS ====================

/-- Range invariant carried by `ReachUI` executions: the three bound
clauses of the specification together with the facts about `targetFloor`
that make them inductive. -/
def InvBounds (s : CarState) : Prop :=
  0 ≤ s.position ∧ s.position ≤ ((CONFIG_FLOORS : ℚ) - 1) * CONFIG_FLOOR_HEIGHT ∧
  0 ≤ s.velocity ∧ s.velocity ≤ CONFIG_ELEVATOR_SPEED_MAX ∧
  0 ≤ s.doorProgress ∧ s.doorProgress ≤ 1 ∧
  (∀ t, s.targetFloor = some t → 0 ≤ t ∧ t < CONFIG_FLOORS) ∧
  ((s.state = MOVING_UP ∨ s.state = MOVING_DOWN) → s.targetFloor ≠ none)

/-- Shape invariant carried by all `Reach` executions: the moving phases
sit strictly on the proper side of the target height, and outside the
moving phases the position is pinned to the current floor height. -/
def InvShape (s : CarState) : Prop :=
  0 ≤ s.velocity ∧ 0 ≤ s.doorProgress ∧ s.doorProgress ≤ 1 ∧
  (s.state = MOVING_UP →
    ∃ t, s.targetFloor = some t ∧ s.position < (t : ℚ) * CONFIG_FLOOR_HEIGHT) ∧
  (s.state = MOVING_DOWN →
    ∃ t, s.targetFloor = some t ∧ (t : ℚ) * CONFIG_FLOOR_HEIGHT < s.position) ∧
  (s.state = DOORS_CLOSING → ∃ t, s.targetFloor = some t ∧ t ≠ s.currentFloor) ∧
  (s.state ≠ MOVING_UP → s.state ≠ MOVING_DOWN →
    s.position = (s.currentFloor : ℚ) * CONFIG_FLOOR_HEIGHT)

-- ==================== CONCRETE STATES USED BY THE THEOREMS ====================

/-- A car one millimetre below floor 1, at full speed: the next tick is an
arrival tick. -/
def sArrive : CarState :=
  { currentFloor := 0
    targetFloor := some 1
    position := 3.999
    velocity := 2
    doorProgress := 0
    state := MOVING_UP }

/-- A car at floor 0 that has just started moving towards floor 3: the
next tick is an ordinary (non-arrival) moving tick. -/
def sDepart : CarState :=
  { currentFloor := 0
    targetFloor := some 3
    position := 0
    velocity := 0
    doorProgress := 0
    state := MOVING_UP }

/-- The component with its doors fully open and no pending timeout. -/
def sysDoorsOpen : SimState :=
  { car := { carInit with doorProgress := 1, state := DOORS_OPEN }
    timers := [] }

/-- A car moving up between floors 1 and 2 towards floor 2. -/
def sMoving : CarState :=
  { currentFloor := 0
    targetFloor := some 2
    position := 6.5
    velocity := 2
    doorProgress := 0
    state := MOVING_UP }

-- ==================== THEOREMS ====================

-- Helper lemmas ------------------------------------------------------------

theorem jsMax_eq_max (a b : ℚ) : jsMax a b = max a b := (max_def a b).symm

theorem jsMin_eq_min (a b : ℚ) : jsMin a b = min a b := (min_def' a b).symm

theorem jsAbs_eq_abs (a : ℚ) : jsAbs a = |a| := by
  unfold jsAbs
  rcases lt_or_ge a 0 with h | h
  · rw [if_pos h, abs_of_neg h]
  · rw [if_neg (not_lt.mpr h), abs_of_nonneg h]


/-- Claim C1 (code bug evaluation): the `DOORS_OPEN` case of the tick
schedules a fresh 2000 ms timeout on every tick and never cancels anything,
so pending hold timers stack: after two ticks spent in `DOORS_OPEN` two
auto-close timers are pending simultaneously. -/
theorem c1_timer_stacking :
    sysDoorsOpen.timers.length = 0 ∧
    (frames 1 sysDoorsOpen).timers.length = 1 ∧
    (frames 2 sysDoorsOpen).timers.length = 2 ∧
    (frames 2 sysDoorsOpen).car.state = DOORS_OPEN := by with_unfolding_all decide

/-- Claim C2 (counterexample): `handleFloorSelect` admits the out-of-range
floor `-1` from the initial state, and three ticks later the position is
negative, violating `0 ≤ position`. -/
theorem c2_counterexample :
    Reach (tick (tick (tick (handleFloorSelect (-1) carInit)))) ∧
    (tick (tick (tick (handleFloorSelect (-1) carInit)))).position < 0 :=
  ⟨Reach.tick (Reach.tick (Reach.tick (Reach.select (-1) Reach.init))), by with_unfolding_all decide⟩

/-- Claim C5 (counterexample): `handleFloorSelect` at the current floor
does reject — the state is unchanged — but the source function returns no
value at all, so the rejection does not carry the reason `AlreadyAtFloor`
(or any reason). -/
theorem c5_counterexample :
    carInit.currentFloor = 0 ∧
    (handleFloorSelectResult 0 carInit).1 = carInit ∧
    (handleFloorSelectResult 0 carInit).2 ≠ some RejectReason.AlreadyAtFloor := by with_unfolding_all decide

/-- Claim C6 (code bug evaluation): a stale auto-close timeout — captured
phase `DOORS_OPEN`, captured target `some 2` — fires while the live phase
is `MOVING_UP`, and instead of being a no-op it forces the phase to
`DOORS_CLOSING` with the car mid-shaft (position 6.5), because the
callback body (source lines 366-370) tests the closure-captured phase
rather than the live one. -/
theorem c6_stale_timer :
    sMoving.state = MOVING_UP ∧
    fireTimer sMoving { remaining := 0, capturedState := DOORS_OPEN, capturedTarget := some 2 } ≠
      sMoving ∧
    (fireTimer sMoving
        { remaining := 0, capturedState := DOORS_OPEN, capturedTarget := some 2 }).state =
      DOORS_CLOSING := by with_unfolding_all decide

/-- Claim C7 (counterexample): after `selectFloor(1)` and one tick the
reachable state is `DOORS_CLOSING` with the doors already closed; a
subsequent tick with `dt = 0` is not a no-op — it moves the phase on to
`MOVING_UP`. -/
theorem c7_counterexample :
    Reach (tick (handleFloorSelect 1 carInit)) ∧
    tickDt 0 (tick (handleFloorSelect 1 carInit)) ≠ tick (handleFloorSelect 1 carInit) :=
  ⟨Reach.tick (Reach.select 1 Reach.init), by with_unfolding_all decide⟩

/-- Claim C8 (counterexample): floor `6` is outside `0 … CONFIG_FLOORS - 1`,
yet `handleFloorSelect 6` from the initial state is admitted and changes
the state, setting `targetFloor = 6` — there is no `FloorOutOfRange`
rejection in the code. -/
theorem c8_counterexample :
    ¬(6 < CONFIG_FLOORS) ∧
    (handleFloorSelect 6 carInit).targetFloor = some 6 ∧
    handleFloorSelect 6 carInit ≠ carInit := by with_unfolding_all decide

/-- Claim C9 (code bug evaluation): the repository constructs nothing from
a caller-supplied configuration — the only configuration is the hard-coded
`CONFIG` literal, which does satisfy all five constraints the
specification requires `new(config)` to check; no validation code and no
`ConfigError` exist. -/
theorem c9_config_literal_valid :
    2 ≤ CONFIG_FLOORS ∧ 0 < CONFIG_FLOOR_HEIGHT ∧ 0 < CONFIG_ELEVATOR_SPEED_MAX ∧
    0 < CONFIG_ACCELERATION ∧ 0 < CONFIG_DECELERATION := by with_unfolding_all decide

theorem tickDt_moving_up (dt : ℚ) (s : CarState) (h : s.state = MOVING_UP) :
    tickDt dt s = movingStep dt true (targetYOf s) s := by
  simp only [tickDt, h]

theorem tickDt_moving_down (dt : ℚ) (s : CarState) (h : s.state = MOVING_DOWN) :
    tickDt dt s = movingStep dt false (targetYOf s) s := by
  simp only [tickDt, h]

theorem movingStep_arrive (dt : ℚ) (up : Bool) (ty : ℚ) (s : CarState)
    (h : arrivalOf dt up ty s) :
    movingStep dt up ty s =
      { s with
          position := ty
          velocity := 0
          currentFloor := s.targetFloor.getD s.currentFloor
          targetFloor := none
          state := DOORS_OPENING } := by
  rw [movingStep, if_pos h]

theorem movingStep_go (dt : ℚ) (up : Bool) (ty : ℚ) (s : CarState)
    (h : ¬arrivalOf dt up ty s) :
    movingStep dt up ty s =
      { s with
          position := newPositionOf dt up ty s
          velocity := newVelocityOf dt ty s } := by
  rw [movingStep, if_neg h]

theorem targetYOf_some (s : CarState) (t : ℤ) (ht : s.targetFloor = some t) :
    targetYOf s = (t : ℚ) * CONFIG_FLOOR_HEIGHT := by
  simp only [targetYOf, ht]

/-- Claim C3: whenever a tick taken in a moving phase sets the phase to
`DOORS_OPENING` (the arrival tick), that same tick sets the velocity to
exactly `0`, the position to exactly `targetFloor × floorHeight`, the
current floor to the target floor, and clears the target floor. -/
theorem c3_arrival_exact (s : CarState) (t : ℤ)
    (hmv : s.state = MOVING_UP ∨ s.state = MOVING_DOWN)
    (ht : s.targetFloor = some t)
    (harr : (tick s).state = DOORS_OPENING) :
    (tick s).velocity = 0 ∧ (tick s).position = (t : ℚ) * CONFIG_FLOOR_HEIGHT ∧
      (tick s).currentFloor = t ∧ (tick s).targetFloor = none := by
  have hY := targetYOf_some s t ht
  rcases hmv with h | h
  · rw [tick, tickDt_moving_up 0.016 s h] at harr ⊢
    by_cases hc : arrivalOf 0.016 true (targetYOf s) s
    · rw [movingStep_arrive 0.016 true (targetYOf s) s hc]
      simp [ht, hY]
    · rw [movingStep_go 0.016 true (targetYOf s) s hc] at harr
      simp [h] at harr
  · rw [tick, tickDt_moving_down 0.016 s h] at harr ⊢
    by_cases hc : arrivalOf 0.016 false (targetYOf s) s
    · rw [movingStep_arrive 0.016 false (targetYOf s) s hc]
      simp [ht, hY]
    · rw [movingStep_go 0.016 false (targetYOf s) s hc] at harr
      simp [h] at harr

theorem c3_arrival_exact_witness :
    (tick sArrive).velocity = 0 ∧
      (tick sArrive).position = ((1 : ℤ) : ℚ) * CONFIG_FLOOR_HEIGHT ∧
      (tick sArrive).currentFloor = 1 ∧ (tick sArrive).targetFloor = none :=
  c3_arrival_exact sArrive 1 (Or.inl rfl) rfl (by with_unfolding_all decide)


theorem tick_nonmoving_frame (dt : ℚ) (s : CarState)
    (h1 : s.state ≠ MOVING_UP) (h2 : s.state ≠ MOVING_DOWN) :
    (tickDt dt s).position = s.position ∧ (tickDt dt s).velocity = s.velocity ∧
      (tickDt dt s).currentFloor = s.currentFloor ∧
      (tickDt dt s).targetFloor = s.targetFloor := by
  cases hst : s.state
  case IDLE =>
    rcases ht : s.targetFloor with _ | t
    · simp [tickDt, hst, ht]
    · simp only [tickDt, hst, ht]
      split <;> simp [ht]
  case DOORS_CLOSING =>
    rcases ht : s.targetFloor with _ | t <;>
      · simp only [tickDt, hst, ht]
        split <;> simp [ht]
  case DOORS_OPENING =>
    simp only [tickDt, hst]
    split <;> simp
  case DOORS_OPEN => simp [tickDt, hst]
  case MOVING_UP => exact absurd hst h1
  case MOVING_DOWN => exact absurd hst h2

/-- Claim C10: a tick taken outside the moving phases leaves `position`,
`velocity`, `currentFloor` and `targetFloor` unchanged (only the phase and
`doorProgress` may change); a tick taken in a moving phase leaves
`doorProgress` unchanged, and leaves `currentFloor` and `targetFloor`
unchanged unless it is the arrival tick (the tick whose result phase is
`DOORS_OPENING`). -/
theorem c10_tick_frame (s : CarState) :
    (s.state ≠ MOVING_UP → s.state ≠ MOVING_DOWN →
      (tick s).position = s.position ∧ (tick s).velocity = s.velocity ∧
        (tick s).currentFloor = s.currentFloor ∧
        (tick s).targetFloor = s.targetFloor) ∧
    (s.state = MOVING_UP ∨ s.state = MOVING_DOWN →
      (tick s).doorProgress = s.doorProgress ∧
        ((tick s).state ≠ DOORS_OPENING →
          (tick s).currentFloor = s.currentFloor ∧
          (tick s).targetFloor = s.targetFloor)) := by
  constructor
  · intro h1 h2
    exact tick_nonmoving_frame 0.016 s h1 h2
  · intro hmv
    have hms : ∃ up ty, tick s = movingStep 0.016 up ty s := by
      rcases hmv with h | h
      · exact ⟨true, targetYOf s, tickDt_moving_up 0.016 s h⟩
      · exact ⟨false, targetYOf s, tickDt_moving_down 0.016 s h⟩
    obtain ⟨up, ty, hms⟩ := hms
    rw [hms]
    by_cases hc : arrivalOf 0.016 up ty s
    · rw [movingStep_arrive 0.016 up ty s hc]
      exact ⟨rfl, fun hno => absurd rfl hno⟩
    · rw [movingStep_go 0.016 up ty s hc]
      exact ⟨rfl, fun _ => ⟨rfl, rfl⟩⟩

theorem c10_tick_frame_witness :
    ((tick carInit).position = carInit.position ∧ (tick carInit).velocity = carInit.velocity ∧
      (tick carInit).currentFloor = carInit.currentFloor ∧
      (tick carInit).targetFloor = carInit.targetFloor) ∧
    ((tick sDepart).doorProgress = sDepart.doorProgress ∧
      ((tick sDepart).state ≠ DOORS_OPENING →
        (tick sDepart).currentFloor = sDepart.currentFloor ∧
        (tick sDepart).targetFloor = sDepart.targetFloor)) :=
  ⟨(c10_tick_frame carInit).1 (by decide) (by decide),
   (c10_tick_frame sDepart).2 (Or.inl rfl)⟩

/-- Claim C4: in a moving phase a non-arrival tick computes
`decelDistance = velocity²/(2·deceleration)`; if
`|targetY - position| ≤ decelDistance + 0.1` the new velocity is
`max 0 (velocity - deceleration·dt)`, otherwise
`min maxSpeed (velocity + acceleration·dt)`; the position then advances by
`sign(direction) × newVelocity × dt` (Euler step with the updated
velocity), with `dt = 0.016` as the source fixes it. -/
theorem c4_kinematics (s : CarState) (t : ℤ)
    (hmv : s.state = MOVING_UP ∨ s.state = MOVING_DOWN)
    (ht : s.targetFloor = some t)
    (hv : s.velocity ≤ CONFIG_ELEVATOR_SPEED_MAX)
    (hgo : (tick s).state = s.state) :
    (tick s).velocity =
      (if |(t : ℚ) * CONFIG_FLOOR_HEIGHT - s.position| ≤
          s.velocity * s.velocity / (2 * CONFIG_DECELERATION) + 0.1 then
        max 0 (s.velocity - CONFIG_DECELERATION * 0.016)
      else
        min CONFIG_ELEVATOR_SPEED_MAX (s.velocity + CONFIG_ACCELERATION * 0.016)) ∧
    (tick s).position =
      s.position +
        (if s.state = MOVING_UP then (tick s).velocity else -(tick s).velocity) * 0.016 := by
  have hY := targetYOf_some s t ht
  have hvel : newVelocityOf 0.016 (targetYOf s) s =
      (if |(t : ℚ) * CONFIG_FLOOR_HEIGHT - s.position| ≤
          s.velocity * s.velocity / (2 * CONFIG_DECELERATION) + 0.1 then
        max 0 (s.velocity - CONFIG_DECELERATION * 0.016)
      else
        min CONFIG_ELEVATOR_SPEED_MAX (s.velocity + CONFIG_ACCELERATION * 0.016)) := by
    rw [newVelocityOf, hY, jsAbs_eq_abs, jsMax_eq_max, jsMin_eq_min]
    split
    · rfl
    · split
      · rfl
      · next hlt =>
        have hveq : s.velocity = CONFIG_ELEVATOR_SPEED_MAX := le_antisymm hv (not_lt.mp hlt)
        rw [hveq, min_eq_left]
        rw [CONFIG_ELEVATOR_SPEED_MAX, CONFIG_ACCELERATION]
        norm_num
  rcases hmv with h | h
  · rw [tick, tickDt_moving_up 0.016 s h] at hgo ⊢
    by_cases hc : arrivalOf 0.016 true (targetYOf s) s
    · rw [movingStep_arrive 0.016 true (targetYOf s) s hc] at hgo
      rw [h] at hgo
      simp at hgo
    · rw [movingStep_go 0.016 true (targetYOf s) s hc]
      refine ⟨hvel, ?_⟩
      simp only [h, if_pos]
      rw [newPositionOf]
      simp
  · rw [tick, tickDt_moving_down 0.016 s h] at hgo ⊢
    by_cases hc : arrivalOf 0.016 false (targetYOf s) s
    · rw [movingStep_arrive 0.016 false (targetYOf s) s hc] at hgo
      rw [h] at hgo
      simp at hgo
    · rw [movingStep_go 0.016 false (targetYOf s) s hc]
      refine ⟨hvel, ?_⟩
      have hne : s.state ≠ MOVING_UP := by rw [h]; simp
      simp only [hne, if_neg]
      rw [newPositionOf]
      simp

theorem c4_kinematics_witness :
    (tick sDepart).velocity =
      (if |(3 : ℚ) * CONFIG_FLOOR_HEIGHT - sDepart.position| ≤
          sDepart.velocity * sDepart.velocity / (2 * CONFIG_DECELERATION) + 0.1 then
        max 0 (sDepart.velocity - CONFIG_DECELERATION * 0.016)
      else
        min CONFIG_ELEVATOR_SPEED_MAX (sDepart.velocity + CONFIG_ACCELERATION * 0.016)) ∧
    (tick sDepart).position =
      sDepart.position +
        (if sDepart.state = MOVING_UP then (tick sDepart).velocity
          else -(tick sDepart).velocity) * 0.016 :=
  c4_kinematics sDepart 3 (Or.inl rfl) rfl (by norm_num [sDepart, CONFIG_ELEVATOR_SPEED_MAX])
    (by with_unfolding_all decide)

/-- Claim C5 (amended): `selectFloor(currentFloor)` always rejects
silently — the function returns without producing any reason value — and
causes no state change; during `MOVING_UP`, `MOVING_DOWN` or
`DOORS_CLOSING` it rejects silently leaving all of `CarState` unchanged;
in all other phases a floor different from the current floor is admitted
and sets `targetFloor` to it. -/
theorem c5_gate (floor : ℤ) (s : CarState) :
    (floor = s.currentFloor →
      handleFloorSelectResult floor s = (s, none)) ∧
    (s.state = MOVING_UP ∨ s.state = MOVING_DOWN ∨ s.state = DOORS_CLOSING →
      handleFloorSelectResult floor s = (s, none)) ∧
    (floor ≠ s.currentFloor → s.state ≠ MOVING_UP → s.state ≠ MOVING_DOWN →
      s.state ≠ DOORS_CLOSING →
      handleFloorSelectResult floor s = ({ s with targetFloor := some floor }, none)) := by
  refine ⟨fun h => ?_, fun h => ?_, fun h1 h2 h3 h4 => ?_⟩
  · rw [handleFloorSelectResult, handleFloorSelect, if_pos (Or.inl h)]
  · rw [handleFloorSelectResult, handleFloorSelect, if_pos (Or.inr h)]
  · rw [handleFloorSelectResult, handleFloorSelect, if_neg]
    simp [h1, h2, h3, h4]

theorem c5_gate_witness :
    handleFloorSelectResult 0 carInit = (carInit, none) ∧
    handleFloorSelectResult 3 sDepart = (sDepart, none) ∧
    handleFloorSelectResult 2 carInit = ({ carInit with targetFloor := some 2 }, none) :=
  ⟨(c5_gate 0 carInit).1 rfl,
   (c5_gate 3 sDepart).2.1 (Or.inl rfl),
   (c5_gate 2 carInit).2.2 (by decide) (by decide) (by decide) (by decide)⟩

/-- Claim C8 (amended): `selectFloor` never produces a reason value — the
source function returns `undefined` on every path, so rejections are
silent — and it performs no range check: any floor outside
`0 … CONFIG_FLOORS - 1` that differs from the current floor is admitted in
the non-blocking phases and becomes the target floor. -/
theorem c8_gate (floor : ℤ) (s : CarState) :
    (handleFloorSelectResult floor s).2 = none ∧
    (floor < 0 ∨ CONFIG_FLOORS ≤ floor →
      floor ≠ s.currentFloor → s.state ≠ MOVING_UP → s.state ≠ MOVING_DOWN →
      s.state ≠ DOORS_CLOSING →
      handleFloorSelect floor s = { s with targetFloor := some floor }) := by
  refine ⟨rfl, fun _ h1 h2 h3 h4 => ?_⟩
  rw [handleFloorSelect, if_neg]
  simp [h1, h2, h3, h4]

theorem c8_gate_witness :
    (handleFloorSelectResult 7 carInit).2 = none ∧
    handleFloorSelect 7 carInit = { carInit with targetFloor := some 7 } :=
  ⟨(c8_gate 7 carInit).1,
   (c8_gate 7 carInit).2 (Or.inr (by decide)) (by decide) (by decide) (by decide) (by decide)⟩

theorem newVelocityOf_nonneg (dt ty : ℚ) (s : CarState) (hv : 0 ≤ s.velocity)
    (hdt : 0 ≤ dt) : 0 ≤ newVelocityOf dt ty s := by
  rw [newVelocityOf]
  split
  · rw [jsMax_eq_max]
    exact le_max_left 0 _
  · split
    · rw [jsMin_eq_min, CONFIG_ELEVATOR_SPEED_MAX, CONFIG_ACCELERATION]
      refine le_min (by norm_num) (by linarith)
    · exact hv

theorem invShape_init : InvShape carInit := by
  refine ⟨le_refl 0, le_refl 0, by norm_num [carInit], ?_, ?_, ?_, ?_⟩ <;> simp [carInit]

theorem invShape_select (floor : ℤ) (s : CarState) (h : InvShape s) :
    InvShape (handleFloorSelect floor s) := by
  obtain ⟨hv, hdp0, hdp1, hMU, hMD, hDC, hpos⟩ := h
  rw [handleFloorSelect]
  split
  · exact ⟨hv, hdp0, hdp1, hMU, hMD, hDC, hpos⟩
  · next hg =>
    push_neg at hg
    obtain ⟨_, h2, h3, h4⟩ := hg
    exact ⟨hv, hdp0, hdp1, fun hc => absurd hc h2, fun hc => absurd hc h3,
      fun hc => absurd hc h4, fun _ _ => hpos (by simpa) (by simpa)⟩

theorem invShape_tick (s : CarState) (h : InvShape s) : InvShape (tick s) := by
  obtain ⟨hv, hdp0, hdp1, hMU, hMD, hDC, hpos⟩ := h
  cases hst : s.state
  case IDLE =>
    have hp := hpos (by rw [hst]; simp) (by rw [hst]; simp)
    rcases ht : s.targetFloor with _ | t
    · simp only [tick, tickDt, hst, ht]
      exact ⟨hv, hdp0, hdp1, by simp [hst], by simp [hst], by simp [hst],
        fun _ _ => hp⟩
    · simp only [tick, tickDt, hst, ht]
      split
      · next hne =>
        exact ⟨hv, hdp0, hdp1, by simp, by simp, fun _ => ⟨t, by simp [ht], hne⟩,
          fun _ _ => hp⟩
      · exact ⟨hv, hdp0, hdp1, by simp [hst], by simp [hst], by simp [hst],
          fun _ _ => hp⟩
  case DOORS_CLOSING =>
    have hp := hpos (by rw [hst]; simp) (by rw [hst]; simp)
    obtain ⟨t, ht, hne⟩ := hDC hst
    simp only [tick, tickDt, hst, ht]
    split
    · next hz =>
      constructor
      · exact hv
      refine ⟨le_of_eq hz.symm, by rw [hz]; norm_num, ?_, ?_, ?_, ?_⟩
      · intro hmu
        simp only at hmu
        split at hmu
        · next hgt =>
          refine ⟨t, by simp [ht], ?_⟩
          rw [hp, CONFIG_FLOOR_HEIGHT]
          have : (s.currentFloor : ℚ) < (t : ℚ) := by exact_mod_cast hgt
          linarith
        · exact absurd hmu (by simp)
      · intro hmd
        simp only at hmd
        split at hmd
        · exact absurd hmd (by simp)
        · next hle =>
          push_neg at hle
          have htlt : t < s.currentFloor := lt_of_le_of_ne hle hne
          refine ⟨t, by simp [ht], ?_⟩
          rw [hp, CONFIG_FLOOR_HEIGHT]
          have : (t : ℚ) < (s.currentFloor : ℚ) := by exact_mod_cast htlt
          linarith
      · intro hdc
        simp only at hdc
        split at hdc <;> simp at hdc
      · intro _ _
        exact hp
    · next hnz =>
      refine ⟨hv, ?_, ?_, by simp [hst], by simp [hst], fun _ => ⟨t, by simp [ht], hne⟩,
        fun _ _ => hp⟩
      · rw [jsMax_eq_max]
        exact le_max_left 0 _
      · simp only
        rw [jsMax_eq_max, max_le_iff]
        constructor
        · norm_num
        · rw [CONFIG_DOOR_ANIMATION_TIME]
          norm_num
          linarith
  case MOVING_UP =>
    obtain ⟨t, ht, hlt⟩ := hMU hst
    have hY := targetYOf_some s t ht
    rw [tick, tickDt_moving_up 0.016 s hst]
    by_cases hc : arrivalOf 0.016 true (targetYOf s) s
    · rw [movingStep_arrive 0.016 true (targetYOf s) s hc]
      refine ⟨le_refl 0, hdp0, hdp1, by simp, by simp, by simp, ?_⟩
      intro _ _
      simp [ht, hY]
    · rw [movingStep_go 0.016 true (targetYOf s) s hc]
      rw [arrivalOf] at hc
      push_neg at hc
      have hnp := hc.1 rfl
      push_neg at hnp
      refine ⟨newVelocityOf_nonneg 0.016 (targetYOf s) s hv (by norm_num), hdp0, hdp1,
        ?_, by simp [hst], by simp [hst], ?_⟩
      · intro _
        exact ⟨t, by simp [ht], by rw [← hY]; simpa using hnp⟩
      · intro hnu _
        simp [hst] at hnu
  case MOVING_DOWN =>
    obtain ⟨t, ht, hlt⟩ := hMD hst
    have hY := targetYOf_some s t ht
    rw [tick, tickDt_moving_down 0.016 s hst]
    by_cases hc : arrivalOf 0.016 false (targetYOf s) s
    · rw [movingStep_arrive 0.016 false (targetYOf s) s hc]
      refine ⟨le_refl 0, hdp0, hdp1, by simp, by simp, by simp, ?_⟩
      intro _ _
      simp [ht, hY]
    · rw [movingStep_go 0.016 false (targetYOf s) s hc]
      rw [arrivalOf] at hc
      push_neg at hc
      have hnp := hc.2 (by simp)
      push_neg at hnp
      refine ⟨newVelocityOf_nonneg 0.016 (targetYOf s) s hv (by norm_num), hdp0, hdp1,
        by simp [hst], ?_, by simp [hst], ?_⟩
      · intro _
        exact ⟨t, by simp [ht], by rw [← hY]; simpa using hnp⟩
      · intro _ hnd
        simp [hst] at hnd
  case DOORS_OPENING =>
    have hp := hpos (by rw [hst]; simp) (by rw [hst]; simp)
    simp only [tick, tickDt, hst]
    split
    · next hone =>
      exact ⟨hv, by rw [hone]; norm_num, le_of_eq hone, by simp, by simp, by simp,
        fun _ _ => hp⟩
    · refine ⟨hv, ?_, ?_, by simp [hst], by simp [hst], by simp [hst], fun _ _ => hp⟩
      · simp only
        rw [jsMin_eq_min, le_min_iff]
        constructor
        · norm_num
        · rw [CONFIG_DOOR_ANIMATION_TIME]
          norm_num
          linarith
      · simp only
        rw [jsMin_eq_min]
        exact min_le_left 1 _
  case DOORS_OPEN =>
    have hp := hpos (by rw [hst]; simp) (by rw [hst]; simp)
    simp only [tick, tickDt, hst]
    exact ⟨hv, hdp0, hdp1, by simp [hst], by simp [hst], by simp [hst], fun _ _ => hp⟩

theorem reach_invShape (s : CarState) (h : Reach s) : InvShape s := by
  induction h with
  | init => exact invShape_init
  | tick _ ih => exact invShape_tick _ ih
  | select floor _ ih => exact invShape_select floor _ ih

theorem newVelocityOf_zero_dt (ty : ℚ) (s : CarState) (hv : 0 ≤ s.velocity) :
    newVelocityOf 0 ty s = s.velocity := by
  rw [newVelocityOf]
  split
  · rw [jsMax_eq_max, mul_zero, sub_zero]
    exact max_eq_right hv
  · split
    · next hlt =>
      rw [jsMin_eq_min, mul_zero, add_zero]
      exact min_eq_right (le_of_lt hlt)
    · rfl

theorem newPositionOf_zero_dt (up : Bool) (ty : ℚ) (s : CarState) :
    newPositionOf 0 up ty s = s.position := by
  rw [newPositionOf, mul_zero, add_zero]

/-- Claim C7 (amended): on every reachable state a tick with `dt = 0`
leaves `position`, `velocity`, `doorProgress`, `currentFloor` and
`targetFloor` unchanged (the phase may still advance through a pending
zero-duration transition, which is why the claim as stated fails). -/
theorem c7_zero_dt_frame (s : CarState) (h : Reach s) :
    (tickDt 0 s).position = s.position ∧ (tickDt 0 s).velocity = s.velocity ∧
      (tickDt 0 s).doorProgress = s.doorProgress ∧
      (tickDt 0 s).currentFloor = s.currentFloor ∧
      (tickDt 0 s).targetFloor = s.targetFloor := by
  obtain ⟨hv, hdp0, hdp1, hMU, hMD, hDC, hpos⟩ := reach_invShape s h
  cases hst : s.state
  case IDLE =>
    rcases ht : s.targetFloor with _ | t
    · simp [tickDt, hst, ht]
    · simp only [tickDt, hst, ht]
      split <;> simp [ht]
  case DOORS_CLOSING =>
    obtain ⟨t, ht, hne⟩ := hDC hst
    have hnext : jsMax 0 (s.doorProgress - 0 * (1 / (CONFIG_DOOR_ANIMATION_TIME / 1000))) =
        s.doorProgress := by
      rw [zero_mul, sub_zero, jsMax_eq_max]
      exact max_eq_right hdp0
    simp only [tickDt, hst, ht, hnext]
    split <;> simp [ht]
  case MOVING_UP =>
    obtain ⟨t, ht, hlt⟩ := hMU hst
    have hY := targetYOf_some s t ht
    have hnoarr : ¬arrivalOf 0 true (targetYOf s) s := by
      rw [arrivalOf, newPositionOf_zero_dt]
      push_neg
      refine ⟨fun _ => ?_, fun hfalse => absurd rfl hfalse⟩
      rw [hY]
      exact hlt
    rw [tickDt_moving_up 0 s hst, movingStep_go 0 true (targetYOf s) s hnoarr,
      newPositionOf_zero_dt, newVelocityOf_zero_dt (targetYOf s) s hv]
    exact ⟨rfl, rfl, rfl, rfl, rfl⟩
  case MOVING_DOWN =>
    obtain ⟨t, ht, hgt⟩ := hMD hst
    have hY := targetYOf_some s t ht
    have hnoarr : ¬arrivalOf 0 false (targetYOf s) s := by
      rw [arrivalOf, newPositionOf_zero_dt]
      push_neg
      refine ⟨fun hfalse => absurd hfalse (by simp), fun _ => ?_⟩
      rw [hY]
      exact hgt
    rw [tickDt_moving_down 0 s hst, movingStep_go 0 false (targetYOf s) s hnoarr,
      newPositionOf_zero_dt, newVelocityOf_zero_dt (targetYOf s) s hv]
    exact ⟨rfl, rfl, rfl, rfl, rfl⟩
  case DOORS_OPENING =>
    have hnext : jsMin 1 (s.doorProgress + 0 * (1 / (CONFIG_DOOR_ANIMATION_TIME / 1000))) =
        s.doorProgress := by
      rw [zero_mul, add_zero, jsMin_eq_min]
      exact min_eq_right hdp1
    simp only [tickDt, hst, hnext]
    split <;> simp
  case DOORS_OPEN => simp [tickDt, hst]

theorem c7_zero_dt_frame_witness :
    (tickDt 0 carInit).position = carInit.position ∧
      (tickDt 0 carInit).velocity = carInit.velocity ∧
      (tickDt 0 carInit).doorProgress = carInit.doorProgress ∧
      (tickDt 0 carInit).currentFloor = carInit.currentFloor ∧
      (tickDt 0 carInit).targetFloor = carInit.targetFloor :=
  c7_zero_dt_frame carInit Reach.init

theorem newVelocityOf_le_cap (dt ty : ℚ) (s : CarState)
    (hv1 : s.velocity ≤ CONFIG_ELEVATOR_SPEED_MAX) (hdt : 0 ≤ dt) :
    newVelocityOf dt ty s ≤ CONFIG_ELEVATOR_SPEED_MAX := by
  rw [newVelocityOf]
  split
  · rw [jsMax_eq_max, max_le_iff, CONFIG_ELEVATOR_SPEED_MAX, CONFIG_DECELERATION] at *
    constructor
    · norm_num
    · linarith
  · split
    · rw [jsMin_eq_min]
      exact min_le_left _ _
    · exact hv1

theorem newPositionOf_true (dt ty : ℚ) (s : CarState) :
    newPositionOf dt true ty s = s.position + newVelocityOf dt ty s * dt := by
  rw [newPositionOf]
  simp

theorem newPositionOf_false (dt ty : ℚ) (s : CarState) :
    newPositionOf dt false ty s = s.position - newVelocityOf dt ty s * dt := by
  rw [newPositionOf]
  simp
  ring

theorem invBounds_init : InvBounds carInit := by
  refine ⟨le_refl 0, ?_, le_refl 0, ?_, le_refl 0, ?_, ?_, ?_⟩
  · norm_num [carInit, CONFIG_FLOORS, CONFIG_FLOOR_HEIGHT]
  · norm_num [carInit, CONFIG_ELEVATOR_SPEED_MAX]
  · norm_num [carInit]
  · intro t ht
    simp [carInit] at ht
  · intro hcon
    exfalso
    rcases hcon with hcon | hcon <;> simp [carInit] at hcon

theorem invBounds_select (floor : ℤ) (s : CarState) (h0 : 0 ≤ floor)
    (h5 : floor < CONFIG_FLOORS) (h : InvBounds s) :
    InvBounds (handleFloorSelect floor s) := by
  obtain ⟨hp0, hp1, hv0, hv1, hd0, hd1, htgt, hmv⟩ := h
  rw [handleFloorSelect]
  split
  · exact ⟨hp0, hp1, hv0, hv1, hd0, hd1, htgt, hmv⟩
  · refine ⟨hp0, hp1, hv0, hv1, hd0, hd1, ?_, ?_⟩
    · intro t ht
      simp only at ht
      rw [Option.some_inj] at ht
      rw [ht] at h0 h5
      exact ⟨h0, h5⟩
    · intro _
      simp

theorem targetY_bounds (s : CarState) (t : ℤ) (ht : s.targetFloor = some t)
    (h0 : 0 ≤ t) (h5 : t < CONFIG_FLOORS) :
    0 ≤ targetYOf s ∧ targetYOf s ≤ ((CONFIG_FLOORS : ℚ) - 1) * CONFIG_FLOOR_HEIGHT := by
  rw [targetYOf_some s t ht, CONFIG_FLOOR_HEIGHT]
  rw [CONFIG_FLOORS] at h5 ⊢
  have hq0 : (0 : ℚ) ≤ (t : ℚ) := by exact_mod_cast h0
  have hq5 : (t : ℚ) ≤ 5 := by
    have : t ≤ 5 := by omega
    exact_mod_cast this
  norm_num
  constructor
  · linarith
  · linarith

theorem invBounds_tick (s : CarState) (h : InvBounds s) : InvBounds (tick s) := by
  obtain ⟨hp0, hp1, hv0, hv1, hd0, hd1, htgt, hmv⟩ := h
  cases hst : s.state
  case IDLE =>
    rcases ht : s.targetFloor with _ | t
    · simp only [tick, tickDt, hst, ht]
      exact ⟨hp0, hp1, hv0, hv1, hd0, hd1, fun t hteq => htgt t (ht ▸ hteq),
        by simp [hst]⟩
    · simp only [tick, tickDt, hst, ht]
      split
      · exact ⟨hp0, hp1, hv0, hv1, hd0, hd1,
          fun u hu => by simp [ht] at hu; exact hu ▸ htgt t ht, by simp [ht]⟩
      · exact ⟨hp0, hp1, hv0, hv1, hd0, hd1,
          fun u hu => by simp [ht] at hu; exact hu ▸ htgt t ht, by simp [hst]⟩
  case DOORS_CLOSING =>
    have hnn : 0 ≤ jsMax 0 (s.doorProgress - 0.016 * (1 / (CONFIG_DOOR_ANIMATION_TIME / 1000))) := by
      rw [jsMax_eq_max]
      exact le_max_left 0 _
    have hle : jsMax 0 (s.doorProgress - 0.016 * (1 / (CONFIG_DOOR_ANIMATION_TIME / 1000))) ≤ 1 := by
      rw [jsMax_eq_max, max_le_iff, CONFIG_DOOR_ANIMATION_TIME]
      norm_num
      linarith
    rcases ht : s.targetFloor with _ | t
    · simp only [tick, tickDt, hst, ht]
      split
      · exact ⟨hp0, hp1, hv0, hv1, hnn, hle, fun u hu => by simp [ht] at hu,
          by simp [hst]⟩
      · exact ⟨hp0, hp1, hv0, hv1, hnn, hle, fun u hu => by simp [ht] at hu,
          by simp [hst]⟩
    · simp only [tick, tickDt, hst, ht]
      split
      · refine ⟨hp0, hp1, hv0, hv1, hnn, hle,
          fun u hu => by simp [ht] at hu; exact hu ▸ htgt t ht, ?_⟩
        intro _
        simp [ht]
      · exact ⟨hp0, hp1, hv0, hv1, hnn, hle,
          fun u hu => by simp [ht] at hu; exact hu ▸ htgt t ht, by simp [hst]⟩
  case MOVING_UP =>
    have htne := hmv (by rw [hst]; simp)
    rcases ht : s.targetFloor with _ | t
    · exact absurd ht htne
    obtain ⟨ht0, ht5⟩ := htgt t ht
    obtain ⟨hty0, hty1⟩ := targetY_bounds s t ht ht0 ht5
    have hstep : (0 : ℚ) ≤ 0.016 := by norm_num
    rw [tick, tickDt_moving_up 0.016 s hst]
    by_cases hc : arrivalOf 0.016 true (targetYOf s) s
    · rw [movingStep_arrive 0.016 true (targetYOf s) s hc]
      refine ⟨hty0, hty1, le_refl 0, ?_, hd0, hd1, by simp, by simp⟩
      rw [CONFIG_ELEVATOR_SPEED_MAX]
      norm_num
    · rw [movingStep_go 0.016 true (targetYOf s) s hc]
      rw [arrivalOf] at hc
      push_neg at hc
      have hnp := hc.1 rfl
      rw [newPositionOf_true] at hnp
      have hvnn := newVelocityOf_nonneg 0.016 (targetYOf s) s hv0 hstep
      have hprod := mul_nonneg hvnn hstep
      refine ⟨?_, ?_, hvnn, newVelocityOf_le_cap 0.016 (targetYOf s) s hv1 hstep,
        hd0, hd1, fun u hu => htgt u hu, by simp [hst, ht]⟩
      · rw [newPositionOf_true]
        simp only
        linarith
      · rw [newPositionOf_true]
        simp only
        linarith
  case MOVING_DOWN =>
    have htne := hmv (by rw [hst]; simp)
    rcases ht : s.targetFloor with _ | t
    · exact absurd ht htne
    obtain ⟨ht0, ht5⟩ := htgt t ht
    obtain ⟨hty0, hty1⟩ := targetY_bounds s t ht ht0 ht5
    have hstep : (0 : ℚ) ≤ 0.016 := by norm_num
    rw [tick, tickDt_moving_down 0.016 s hst]
    by_cases hc : arrivalOf 0.016 false (targetYOf s) s
    · rw [movingStep_arrive 0.016 false (targetYOf s) s hc]
      refine ⟨hty0, hty1, le_refl 0, ?_, hd0, hd1, by simp, by simp⟩
      rw [CONFIG_ELEVATOR_SPEED_MAX]
      norm_num
    · rw [movingStep_go 0.016 false (targetYOf s) s hc]
      rw [arrivalOf] at hc
      push_neg at hc
      have hnp := hc.2 (by simp)
      rw [newPositionOf_false] at hnp
      have hvnn := newVelocityOf_nonneg 0.016 (targetYOf s) s hv0 hstep
      have hprod := mul_nonneg hvnn hstep
      refine ⟨?_, ?_, hvnn, newVelocityOf_le_cap 0.016 (targetYOf s) s hv1 hstep,
        hd0, hd1, fun u hu => htgt u hu, by simp [hst, ht]⟩
      · rw [newPositionOf_false]
        simp only
        linarith
      · rw [newPositionOf_false]
        simp only
        linarith
  case DOORS_OPENING =>
    have hnn : 0 ≤ jsMin 1 (s.doorProgress + 0.016 * (1 / (CONFIG_DOOR_ANIMATION_TIME / 1000))) := by
      rw [jsMin_eq_min, le_min_iff, CONFIG_DOOR_ANIMATION_TIME]
      norm_num
      linarith
    have hle : jsMin 1 (s.doorProgress + 0.016 * (1 / (CONFIG_DOOR_ANIMATION_TIME / 1000))) ≤ 1 := by
      rw [jsMin_eq_min]
      exact min_le_left _ _
    simp only [tick, tickDt, hst]
    split
    · exact ⟨hp0, hp1, hv0, hv1, hnn, hle, htgt, by simp⟩
    · exact ⟨hp0, hp1, hv0, hv1, hnn, hle, htgt, by simp [hst]⟩
  case DOORS_OPEN =>
    simp only [tick, tickDt, hst]
    exact ⟨hp0, hp1, hv0, hv1, hd0, hd1, htgt, by simp [hst]⟩

theorem reachUI_invBounds (s : CarState) (h : ReachUI s) : InvBounds s := by
  induction h with
  | init => exact invBounds_init
  | tick _ ih => exact invBounds_tick _ ih
  | select floor h0 h5 _ ih => exact invBounds_select floor _ h0 h5 ih

/-- Claim C2 (amended): on every state reachable by ticks and admitted
`selectFloor` calls whose floor is one the UI renders a button for
(`0 … CONFIG_FLOORS - 1`), the position stays within the shaft, the
velocity within `[0, maxSpeed]`, and the door progress within `[0, 1]`. -/
theorem c2_bounds (s : CarState) (h : ReachUI s) :
    0 ≤ s.position ∧ s.position ≤ ((CONFIG_FLOORS : ℚ) - 1) * CONFIG_FLOOR_HEIGHT ∧
      0 ≤ s.velocity ∧ s.velocity ≤ CONFIG_ELEVATOR_SPEED_MAX ∧
      0 ≤ s.doorProgress ∧ s.doorProgress ≤ 1 := by
  obtain ⟨hp0, hp1, hv0, hv1, hd0, hd1, _, _⟩ := reachUI_invBounds s h
  exact ⟨hp0, hp1, hv0, hv1, hd0, hd1⟩

theorem c2_bounds_witness :
    0 ≤ carInit.position ∧
      carInit.position ≤ ((CONFIG_FLOORS : ℚ) - 1) * CONFIG_FLOOR_HEIGHT ∧
      0 ≤ carInit.velocity ∧ carInit.velocity ≤ CONFIG_ELEVATOR_SPEED_MAX ∧
      0 ≤ carInit.doorProgress ∧ carInit.doorProgress ≤ 1 :=
  c2_bounds carInit ReachUI.init
